import Mathlib

/-!
Shallow embedding of the `tail-ws` repository (packages `watch`, `broadcast`
and the `tail-ws` command) together with theorems settling the specification
claims about it.

The embedding follows the Go source:
* `watch/watch.go` — the synchronized tail reader (`reader.Read`,
  `reader.Close`, `reader.handleEvent`, `reader.openFile`, option setters).
* `broadcast/server.go` — the broadcast orchestrator (`Server.Watch` loop,
  `Server.broadcast`, `Server.HandleWS`, keepalive constants, origin check).
* the connections registry file (package `broadcast`) — `Connections.Add`,
  `Connections.Delete`, `Connections.IsEmpty`, `Connections.Close`,
  `Connections.Iter` and their reader/writer lock discipline.

Concurrency is embedded by serializing each filesystem mutation with the
handling of the notification it generates (the reader's `read` channel is
unbuffered, so event handling and reader wake-ups are already in lockstep in
the source), and by scripting the outcomes of external effects (file reads,
socket writes, stat calls) as explicit inputs.
-/

namespace TailWS

/-! Errors of package `watch` (watch/watch.go lines 15-19), plus the error
case of a failed `os.Stat` inside the write branch of `handleEvent`. -/

inductive WatchError where
  | fileDeleted
  | fileOverwritten
  | fileRenamed
  | statFailed
  deriving DecidableEq, Repr

/-- Filesystem event operations delivered by fsnotify; `reader.handleEvent`
distinguishes Remove, Rename and Write and ignores every other op. -/
inductive EventOp where
  | create
  | write
  | remove
  | rename
  | chmod
  deriving DecidableEq, Repr

/-- Mutable state of the open file tracked by `reader` (watch/watch.go):
`offset` is the `r.offset` field (an int64) and `pos` is the position of the
open handle `r.file` (moved by `Seek`, advanced by `Read`). -/
structure ReaderState where
  offset : Int
  pos : Int
  deriving DecidableEq, Repr

/-- Write branch of `reader.handleEvent` (watch/watch.go lines 198-219) for a
successful stat returning `size`: when `size <= r.offset` the handle is sought
back to byte 0 and `r.offset` is reset to 0, and when additionally `size == 0`
the handler returns without signalling; in every other case one readiness
signal is sent on `r.read`. The returned Bool records whether the readiness
signal was emitted. -/
def handleWrite (size : Int) (st : ReaderState) : ReaderState × Bool :=
  if size ≤ st.offset then
    if size = 0 then ({ offset := 0, pos := 0 }, false)
    else ({ offset := 0, pos := 0 }, true)
  else (st, true)

/-- Embedding of `reader.handleEvent` (watch/watch.go lines 185-222).
`pathExists` is the result of `os.Stat` in the Remove branch (`false` when the
stat reports the path does not exist) and `statSize` is the result of the stat
in the Write branch (`none` when that stat fails). The Bool of a successful
result records whether a readiness signal was emitted. -/
def handleEvent (op : EventOp) (pathExists : Bool) (statSize : Option Int)
    (st : ReaderState) : Except WatchError (ReaderState × Bool) :=
  match op with
  | .remove =>
    if pathExists then .error .fileOverwritten else .error .fileDeleted
  | .rename => .error .fileRenamed
  | .write =>
    match statSize with
    | none => .error .statFailed
    | some size => .ok (handleWrite size st)
  | _ => .ok (st, false)

/-- Position of the handle returned by `reader.openFile` (watch/watch.go
lines 166-183) on a file of the given size: seek to `r.offset` when it is
positive, else to the end of the file when the `SeekEnd` option was used,
else stay at byte 0. -/
def openFilePos (offset : Int) (seekEnd : Bool) (size : Int) : Int :=
  if offset > 0 then offset else if seekEnd then size else 0

/-! Keepalive policy constants of `broadcast/server.go` (lines 18-26),
expressed in nanoseconds exactly as Go's `time.Duration` counts them. -/

/-- One `time.Second` in nanoseconds. -/
def second : Nat := 1000000000

/-- maxMessageSize (broadcast/server.go line 22). -/
def maxMessageSize : Nat := 1024

/-- pongWait, the read (liveness) deadline (broadcast/server.go line 24). -/
def pongWait : Nat := 60 * second

/-- pingPeriod, computed in the source as `(pongWait * 9) / 10`
(broadcast/server.go line 23). -/
def pingPeriod : Nat := pongWait * 9 / 10

/-- writeWait, the per-write deadline (broadcast/server.go line 25). -/
def writeWait : Nat := 8 * second

/-! Lock balance of the connections registry (package `broadcast`,
`Connections`). `Connections.Iter` takes `c.mu.RLock()`, walks the registry
and calls the visitor on each member; when the visitor returns false the
method returns at once, and the final `c.mu.RUnlock()` — which is NOT
deferred — is skipped. The functions below compute how many read locks are
still held when `Iter` returns. -/

/-- Number of read locks held after `Connections.Iter`'s range loop, the RLock
having already been acquired: reaching the end of the registry executes the
trailing `RUnlock` (balance 0); an early `return` triggered by the visitor
returning false skips it (balance 1). -/
def iterLoopLocks (fn : Nat → Bool) : List Nat → Nat
  | [] => 0
  | c :: cs => if fn c then iterLoopLocks fn cs else 1

/-- Read locks still held when `Connections.Iter` returns, for a registry
holding `regs` and visitor `fn`. -/
def iterReadLocksHeld (regs : List Nat) (fn : Nat → Bool) : Nat :=
  iterLoopLocks fn regs

/-! Embedding of `reader.Read` (watch/watch.go lines 77-102). The method
first receives from the unbuffered channel `r.read`; a receive on a closed
channel yields `ok = false` and the method returns `(0, io.EOF)`. It then
loops: call `r.file.Read`; a non-nil error other than `io.EOF` is returned
with the byte count; when `n > 0` the offset is advanced by `n` and `(n, nil)`
is returned (a simultaneous `io.EOF` is swallowed); otherwise the method
receives from `r.read` again, returning `(0, io.EOF)` if the channel has been
closed (`reader.Close`, lines 104-107, closes it) and iterating otherwise.

The external effects are scripted: `first` is the outcome of the initial
channel receive (`false` = channel already closed), and each element of
`steps` pairs the outcome of one `r.file.Read` call with the outcome of the
channel receive that follows it when the loop does not return first. -/

/-- Kinds of error an underlying `r.file.Read` can produce: end-of-file, or
any other (non-EOF) I/O error. -/
inductive FileErr where
  | eof
  | other
  deriving DecidableEq, Repr

/-- Outcome of one underlying `r.file.Read` call: byte count and optional
error. -/
structure FileReadResult where
  n : Nat
  err : Option FileErr
  deriving DecidableEq, Repr

/-- Observable result of `reader.Read`: `bytes n` is `(n, nil)` with `n > 0`;
`fail n` is `(n, err)` for a non-EOF error `err`; `eofClosed` is `(0, io.EOF)`
reported after the read channel was found closed. -/
inductive ReadOutcome where
  | bytes (n : Nat)
  | fail (n : Nat)
  | eofClosed
  deriving DecidableEq, Repr

/-- Return value of `reader.Read` together with the reader's offset at the
moment of return. -/
structure ReadReturn where
  out : ReadOutcome
  offset : Int
  deriving DecidableEq, Repr

/-- The retry loop of `reader.Read` (watch/watch.go lines 84-101), entered
after a successful initial channel receive. `none` means the loop is still
blocked waiting for a readiness signal beyond the scripted ones. -/
def readIter (offset : Int) : List (FileReadResult × Bool) → Option ReadReturn
  | [] => none
  | (fr, next) :: rest =>
    if fr.err = some FileErr.other then some ⟨ReadOutcome.fail fr.n, offset⟩
    else if 0 < fr.n then some ⟨ReadOutcome.bytes fr.n, offset + fr.n⟩
    else if next then readIter offset rest
    else some ⟨ReadOutcome.eofClosed, offset⟩

/-- Embedding of `reader.Read` (watch/watch.go lines 77-102): the initial
channel receive, then the retry loop. -/
def readGo (offset : Int) (first : Bool)
    (steps : List (FileReadResult × Bool)) : Option ReadReturn :=
  if first then readIter offset steps else some ⟨ReadOutcome.eofClosed, offset⟩

/-! Embedding of the orchestrator's tail loop, `Server.Watch`
(broadcast/server.go lines 174-199). The reader is created once with the
`SeekEnd` option; the loop keeps calling `r.Watch` while it returns
`ErrFileOverwritten` and returns the first other error. Each `r.Watch` call
reopens the file through `reader.openFile` without touching `r.offset`. -/

/-- The `for` loop of `Server.Watch` over the errors returned by successive
`r.Watch` sessions: it returns the first error that is not
`ErrFileOverwritten`; `none` means every scripted session ended in
`ErrFileOverwritten` and the loop is still running. -/
def serverWatchLoop : List WatchError → Option WatchError
  | [] => none
  | e :: rest =>
    if e = WatchError.fileOverwritten then serverWatchLoop rest else some e

/-- Handle position at which `Server.Watch`'s reader reopens a file of size
`newSize`: the reader was built with `watch.NewReader(watch.SeekEnd())`, so
`reader.openFile` seeks to the retained `r.offset` when it is positive and to
the end of the file otherwise. -/
def serverReopenPos (retained : Int) (newSize : Int) : Int :=
  openFilePos retained true newSize

/-- C10: The keepalive policy constants satisfy: the liveness (read) deadline
`pongWait` is 60 seconds, the probe period `pingPeriod` equals 0.9 times the
deadline (54 seconds, i.e. `pingPeriod * 10 = 9 * pongWait` exactly), and the
probe period is strictly shorter than the deadline. -/
theorem c10_keepalive_constants :
    pongWait = 60 * second ∧
    pingPeriod = 54 * second ∧
    pingPeriod * 10 = 9 * pongWait ∧
    pingPeriod < pongWait := by
  refine ⟨rfl, ?_, ?_, ?_⟩ <;> decide

/-- C4: For every write notification with stat size `size`: if
`size ≤ offset` the handle is sought to byte 0 and the offset reset to 0, and
the readiness signal is emitted exactly when it is not the case that the event
is a truncation to size exactly 0; in every other case (growth, or truncation
to a positive size) exactly one readiness signal is emitted. The write branch
of `handleEvent` defers to `handleWrite` on a successful stat. -/
theorem c4_write_event (size : Int) (st : ReaderState) :
    ((handleWrite size st).1 =
      if size ≤ st.offset then { offset := 0, pos := 0 } else st) ∧
    ((handleWrite size st).2 = true ↔ ¬(size ≤ st.offset ∧ size = 0)) ∧
    (handleEvent .write true (some size) st = .ok (handleWrite size st)) := by
  refine ⟨?_, ?_, rfl⟩ <;> unfold handleWrite <;> split_ifs with h₁ h₂ <;>
    simp_all

/-- Witness for C4 at a concrete truncation-to-zero input: starting from
offset 5, a write event whose stat size is 0 resets offset and handle
position to 0 and emits no readiness signal. -/
theorem c4_write_event_witness :
    (handleWrite 0 { offset := 5, pos := 5 }).1 = { offset := 0, pos := 0 } ∧
    (handleWrite 0 { offset := 5, pos := 5 }).2 = false := by
  have h := c4_write_event 0 { offset := 5, pos := 5 }
  have h2 : ¬((handleWrite 0 { offset := 5, pos := 5 }).2 = true) :=
    fun hb => (h.2.1.mp hb) ⟨by decide, rfl⟩
  exact ⟨by simpa using h.1, by simpa using h2⟩

/-- C3 (code bug): `Connections.Iter` does not release the shared read lock on
the early-return path — with a one-element registry and a visitor that stops
(returns false), one read lock is still held when `Iter` returns, while a full
iteration releases it. -/
theorem c3_iter_lock_leak :
    iterReadLocksHeld [1] (fun _ => false) = 1 ∧
    iterReadLocksHeld [1] (fun _ => true) = 0 := by
  exact ⟨rfl, rfl⟩

/-- Helper for C5: every result the retry loop of `reader.Read` produces is
positive bytes with the offset advanced by exactly that count, a non-EOF
failure with the offset unchanged, or a clean end-of-stream with the offset
unchanged after a receive found the channel closed. -/
theorem readIter_spec (offset : Int) (steps : List (FileReadResult × Bool))
    (r : ReadReturn) (h : readIter offset steps = some r) :
    (∃ n, 0 < n ∧ r.out = ReadOutcome.bytes n ∧ r.offset = offset + n) ∨
    (∃ n, r.out = ReadOutcome.fail n ∧ r.offset = offset) ∨
    (r.out = ReadOutcome.eofClosed ∧ r.offset = offset ∧
      ∃ p ∈ steps, p.2 = false) := by
  induction steps with
  | nil => simp [readIter] at h
  | cons hd tl ih =>
    obtain ⟨fr, next⟩ := hd
    rw [readIter] at h
    split_ifs at h with h₁ h₂ h₃
    · cases h
      exact Or.inr (Or.inl ⟨fr.n, rfl, rfl⟩)
    · cases h
      exact Or.inl ⟨fr.n, h₂, rfl, rfl⟩
    · rcases ih h with hb | hf | ⟨ho, hoff, p, hp, hp2⟩
      · exact Or.inl hb
      · exact Or.inr (Or.inl hf)
      · exact Or.inr (Or.inr ⟨ho, hoff, p, List.mem_cons_of_mem _ hp, hp2⟩)
    · cases h
      refine Or.inr (Or.inr ⟨rfl, rfl, (fr, next), List.mem_cons_self _ _, ?_⟩)
      simpa using h₃

/-- C5: Every return of `reader.Read` is (a) `n > 0` bytes with no error and
the offset advanced by exactly `n`, (b) a non-end-of-stream error from the
underlying file with the offset unchanged, or (c) zero bytes with a clean
end-of-stream after a channel receive observed that the reader was closed
(either the initial receive or a later one); a zero-byte, no-error return
does not occur — the loop blocks for the next readiness signal instead. -/
theorem c5_read_contract (offset : Int) (first : Bool)
    (steps : List (FileReadResult × Bool)) (r : ReadReturn)
    (h : readGo offset first steps = some r) :
    (∃ n, 0 < n ∧ r.out = ReadOutcome.bytes n ∧ r.offset = offset + n) ∨
    (∃ n, r.out = ReadOutcome.fail n ∧ r.offset = offset) ∨
    (r.out = ReadOutcome.eofClosed ∧ r.offset = offset ∧
      (first = false ∨ ∃ p ∈ steps, p.2 = false)) := by
  rw [readGo] at h
  split_ifs at h with h₁
  · rcases readIter_spec offset steps r h with hb | hf | ⟨ho, hoff, hc⟩
    · exact Or.inl hb
    · exact Or.inr (Or.inl hf)
    · exact Or.inr (Or.inr ⟨ho, hoff, Or.inr hc⟩)
  · cases h
    exact Or.inr (Or.inr ⟨rfl, rfl, Or.inl (by simpa using h₁)⟩)

/-- Witness for C5: a read that wakes once and obtains 5 bytes returns them
with the offset advanced from 0 to 5, matching case (a). -/
theorem c5_read_contract_witness :
    (∃ n, 0 < n ∧
      ReadReturn.out { out := ReadOutcome.bytes 5, offset := 5 }
        = ReadOutcome.bytes n ∧
      ReadReturn.offset { out := ReadOutcome.bytes 5, offset := 5 }
        = 0 + n) ∨
    (∃ n, ReadReturn.out { out := ReadOutcome.bytes 5, offset := 5 }
        = ReadOutcome.fail n ∧
      ReadReturn.offset { out := ReadOutcome.bytes 5, offset := 5 } = 0) ∨
    (ReadReturn.out { out := ReadOutcome.bytes 5, offset := 5 }
        = ReadOutcome.eofClosed ∧
      ReadReturn.offset { out := ReadOutcome.bytes 5, offset := 5 } = 0 ∧
      (true = false ∨
        ∃ p ∈ [(({ n := 5, err := none } : FileReadResult), true)],
          p.2 = false)) := by
  exact c5_read_contract 0 true [({ n := 5, err := none }, true)]
    { out := ReadOutcome.bytes 5, offset := 5 } (by decide)

/-- C7: A remove event makes `reader.handleEvent` stat the path and fail with
`ErrFileDeleted` when the path no longer exists and with `ErrFileOverwritten`
when it exists again; a rename event makes it fail with `ErrFileRenamed`.
`ErrFileOverwritten` is the only error on which the orchestrator's watch loop
continues (recoverable); every other error terminates the loop and is
returned (terminal). -/
theorem c7_event_errors (pathExists : Bool) (statSize : Option Int)
    (st : ReaderState) (e : WatchError) (rest : List WatchError) :
    (handleEvent EventOp.remove pathExists statSize st =
      Except.error
        (if pathExists then WatchError.fileOverwritten
         else WatchError.fileDeleted)) ∧
    (handleEvent EventOp.rename pathExists statSize st =
      Except.error WatchError.fileRenamed) ∧
    (serverWatchLoop (WatchError.fileOverwritten :: rest) =
      serverWatchLoop rest) ∧
    (e ≠ WatchError.fileOverwritten → serverWatchLoop (e :: rest) = some e) := by
  refine ⟨?_, rfl, by simp [serverWatchLoop], ?_⟩
  · cases pathExists <;> rfl
  · intro he
    simp [serverWatchLoop, he]

/-- Witness for C7: a remove event with the path already recreated fails with
`ErrFileOverwritten`, and a watch session ending in `ErrFileDeleted`
terminates the orchestrator loop with that error. -/
theorem c7_event_errors_witness :
    handleEvent EventOp.remove true none { offset := 0, pos := 0 } =
      Except.error WatchError.fileOverwritten ∧
    serverWatchLoop [WatchError.fileDeleted] = some WatchError.fileDeleted := by
  have h := c7_event_errors true none { offset := 0, pos := 0 }
    WatchError.fileDeleted []
  exact ⟨h.1, h.2.2.2 (by decide)⟩

/-- C1 counterexample: after a session in which `reader.Read` consumed 5 bytes
(offset 5), a `FileOverwritten` return makes the loop continue (the scripted
loop over the single overwritten session has not terminated), but the reader
reopens the recreated 7-byte file positioned at byte 5 — its retained offset —
not at byte 0; even with retained offset 0, the `SeekEnd` option positions the
handle at byte 7 (the end), not at byte 0. -/
theorem c1_counterexample :
    serverWatchLoop [WatchError.fileOverwritten] = none ∧
    readGo 0 true [({ n := 5, err := none }, true)] =
      some { out := ReadOutcome.bytes 5, offset := 5 } ∧
    serverReopenPos 5 7 = 5 ∧
    serverReopenPos 5 7 ≠ 0 ∧
    serverReopenPos 0 7 = 7 ∧
    serverReopenPos 0 7 ≠ 0 := by
  decide

/-- C1 (amended): when a watch session returns `FileOverwritten` the
orchestrator's loop continues rather than terminating and reopens the reader
(any other error terminates the loop); the reopened handle is positioned at
the reader's retained offset when that offset is positive, and otherwise at
the end of the recreated file (the orchestrator's reader is configured with
`SeekEnd`) — not, in general, at byte 0. -/
theorem c1_overwritten_reopen (rest : List WatchError) (e : WatchError)
    (off newSize : Int) :
    (serverWatchLoop (WatchError.fileOverwritten :: rest) =
      serverWatchLoop rest) ∧
    (e ≠ WatchError.fileOverwritten → serverWatchLoop (e :: rest) = some e) ∧
    serverReopenPos off newSize = (if 0 < off then off else newSize) := by
  refine ⟨by simp [serverWatchLoop], ?_, ?_⟩
  · intro he
    simp [serverWatchLoop, he]
  · simp [serverReopenPos, openFilePos]

/-- Witness for C1's amended theorem: a loop whose sessions end in
`FileOverwritten` then `FileRenamed` terminates with `FileRenamed`, and a
reader with retained offset 5 reopens a 7-byte file at position 5. -/
theorem c1_overwritten_reopen_witness :
    serverWatchLoop
      [WatchError.fileOverwritten, WatchError.fileRenamed] =
      some WatchError.fileRenamed ∧
    serverReopenPos 5 7 = 5 := by
  have h := c1_overwritten_reopen [WatchError.fileRenamed]
    WatchError.fileRenamed 5 7
  have h2 := c1_overwritten_reopen ([] : List WatchError)
    WatchError.fileRenamed 5 7
  refine ⟨?_, by simpa using h.2.2⟩
  rw [h.1]
  exact h2.2.1 (by decide)

/-! Embedding of the connections registry and the server paths that touch it.
Connections are identified by naturals. The state tracks the registry's
membership and, per connection, how many times its underlying transport's
`Close` has been called. Socket write and ping outcomes are scripted. -/

/-- Registry membership plus a per-connection count of transport `Close`
calls. -/
structure ServerState where
  registry : List Nat
  closes : Nat → Nat

/-- `Connections.Add`: exclusive-lock insert into the registry set (a Go map;
inserting a present key leaves the set unchanged). -/
def addConn (regs : List Nat) (ws : Nat) : List Nat :=
  if ws ∈ regs then regs else ws :: regs

/-- `Server.HandleWS` (broadcast/server.go lines 85-134): when the upgrade
succeeds — which requires the origin check to pass and the rest of the
handshake to succeed — the connection is added to the registry; on upgrade
failure the handler returns with no registry entry and no further action. -/
def handleWSStep (originOk otherOk : Bool) (ws : Nat) (st : ServerState) :
    ServerState :=
  if originOk && otherOk then
    { st with registry := addConn st.registry ws }
  else st

/-- The origin check installed by `NewServer` (broadcast/server.go lines
64-69): when a non-empty allowed origin is configured it succeeds exactly on
an equal request Origin header; an empty configured origin accepts every
request. -/
def checkOrigin (cfg req : String) : Bool :=
  if cfg ≠ "" then cfg == req else true

/-- Result of one `Server.broadcast` call (broadcast/server.go lines
201-214): the state afterwards, the connections a write was dispatched to
(the visitor runs on every member and always returns true), and those whose
write succeeded before its deadline. -/
structure BroadcastResult where
  state : ServerState
  attempted : List Nat
  delivered : List Nat

/-- `Server.broadcast`: iterate the registry and, per connection, spawn an
independent deadline-bounded write; a failed write is logged and closes that
connection's transport — the registry is not modified and no error is
propagated. `writeOk` scripts each connection's write outcome. -/
def broadcastStep (writeOk : Nat → Bool) (st : ServerState) :
    BroadcastResult :=
  { state :=
      { registry := st.registry
        closes := fun c =>
          if c ∈ st.registry ∧ writeOk c = false then st.closes c + 1
          else st.closes c }
    attempted := st.registry
    delivered := st.registry.filter writeOk }

/-- The per-connection keepalive timer body (broadcast/server.go lines
108-124): on a tick, send a ping probe; when the probe send fails, log and
close that connection's transport. Nothing is removed from the registry and
no error is propagated. -/
def pingProbeStep (ws : Nat) (probeOk : Bool) (st : ServerState) :
    ServerState :=
  if probeOk then st
  else
    { st with
        closes := fun c => if c = ws then st.closes c + 1 else st.closes c }

/-- `Connections.Delete`, reached from the close handler installed by
`Server.HandleWS` on a protocol-level close from the peer: under the
exclusive lock the connection is removed from the registry, then its
transport is closed. -/
def peerCloseStep (ws : Nat) (st : ServerState) : ServerState :=
  { registry := st.registry.filter (fun c => c ≠ ws)
    closes := fun c => if c = ws then st.closes c + 1 else st.closes c }

/-- `Connections.Close`, run at shutdown: iterate the registry and close
every member's transport; no member is removed. -/
def shutdownStep (st : ServerState) : ServerState :=
  { registry := st.registry
    closes := fun c => if c ∈ st.registry then st.closes c + 1 else st.closes c }

/-- A registry holding the single connection 1, none of whose transports has
been closed yet. -/
def oneConnState : ServerState :=
  { registry := [1], closes := fun _ => 0 }

/-- C2 counterexample: with connection 1 registered, a broadcast whose write
to it fails closes its transport (close count becomes 1) but does NOT remove
it from the registry, and the next broadcast dispatches to it again — so a
broken-transport connection is not removed and does receive further dispatch
attempts. -/
theorem c2_counterexample :
    (broadcastStep (fun _ => false) oneConnState).state.closes 1 = 1 ∧
    (broadcastStep (fun _ => false) oneConnState).state.registry = [1] ∧
    1 ∈ (broadcastStep (fun _ => false)
      (broadcastStep (fun _ => false) oneConnState).state).attempted := by
  refine ⟨?_, rfl, ?_⟩ <;> decide

/-- C2 (amended): a failed dispatch write closes only that connection's
transport — the registry is unchanged, every other connection is untouched,
each registered connection with a working transport is delivered to, and no
error is escalated (broadcast returns nothing); a failed keepalive probe
likewise closes only that connection's transport and removes nothing. The
failed connection is NOT removed from the registry by these paths — removal
happens only through the peer-close handler. -/
theorem c2_failure_isolation (writeOk : Nat → Bool) (st : ServerState)
    (c : Nat) (hc : c ∈ st.registry) :
    ((broadcastStep writeOk st).state.registry = st.registry) ∧
    ((broadcastStep writeOk st).state.closes c =
      if writeOk c then st.closes c else st.closes c + 1) ∧
    (writeOk c = true → c ∈ (broadcastStep writeOk st).delivered) ∧
    (∀ d, d ∉ st.registry →
      (broadcastStep writeOk st).state.closes d = st.closes d) ∧
    ((pingProbeStep c false st).registry = st.registry) ∧
    ((pingProbeStep c false st).closes c = st.closes c + 1) ∧
    (∀ d, d ≠ c → (pingProbeStep c false st).closes d = st.closes d) := by
  refine ⟨rfl, ?_, ?_, ?_, rfl, by simp [pingProbeStep], ?_⟩
  · by_cases hw : writeOk c
    · simp [broadcastStep, hw]
    · simp [broadcastStep, hc, hw]
  · intro hw
    simp [broadcastStep, List.mem_filter, hc, hw]
  · intro d hd
    simp [broadcastStep, hd]
  · intro d hd
    simp [pingProbeStep, hd]

/-- Witness for C2's amended theorem: with connection 1 registered and its
write failing, the registry is unchanged and the close count becomes 1. -/
theorem c2_failure_isolation_witness :
    (broadcastStep (fun _ => false) oneConnState).state.registry =
      oneConnState.registry ∧
    (broadcastStep (fun _ => false) oneConnState).state.closes 1 =
      oneConnState.closes 1 + 1 := by
  have h := c2_failure_isolation (fun _ => false) oneConnState 1 (by decide)
  exact ⟨h.1, by simpa using h.2.1⟩

/-- C6 counterexample: connection 1's transport is closed twice — once by the
failed-write path of a broadcast and once more by the shutdown path — so the
transport is not closed exactly once by whichever removal path reaches it
first. -/
theorem c6_counterexample :
    (shutdownStep
      (broadcastStep (fun _ => false) oneConnState).state).closes 1 = 2 := by
  decide

/-- C6 (amended): every path that reaches a connection closes its transport,
but only the peer-close path (`Connections.Delete`) also removes it from the
registry, so at-most-once close is not guaranteed: a registered connection
whose write fails and that is then reached by shutdown is closed twice. After
a peer-close removal the connection is absent from the registry, its close
count has increased by exactly one, and a subsequent broadcast no longer
dispatches to it. -/
theorem c6_close_paths (st : ServerState) (c : Nat) (writeOk : Nat → Bool)
    (hc : c ∈ st.registry) :
    (writeOk c = false →
      (shutdownStep (broadcastStep writeOk st).state).closes c =
        st.closes c + 2) ∧
    (c ∉ (peerCloseStep c st).registry) ∧
    ((peerCloseStep c st).closes c = st.closes c + 1) ∧
    (c ∉ (broadcastStep writeOk (peerCloseStep c st)).attempted) := by
  refine ⟨?_, ?_, by simp [peerCloseStep], ?_⟩
  · intro hw
    simp [shutdownStep, broadcastStep, hc, hw]
  · simp [peerCloseStep, List.mem_filter]
  · simp [broadcastStep, peerCloseStep, List.mem_filter]

/-- Witness for C6's amended theorem: connection 1, registered with a failing
write, is closed twice by broadcast-failure followed by shutdown, and after a
peer close it is out of the registry with exactly one close. -/
theorem c6_close_paths_witness :
    (shutdownStep
      (broadcastStep (fun _ => false) oneConnState).state).closes 1 =
      oneConnState.closes 1 + 2 ∧
    1 ∉ (peerCloseStep 1 oneConnState).registry := by
  have h := c6_close_paths oneConnState 1 (fun _ => false) (by decide)
  exact ⟨h.1 rfl, h.2.1⟩

/-- C8: with a non-empty configured origin the origin check succeeds exactly
when the request's Origin header equals the configured value; with an empty
configured origin every request passes; and when the check fails the upgrade
fails, so the handler leaves the state untouched — the rejected connection
never appears in the registry. -/
theorem c8_origin_enforcement (cfg req : String) (ws : Nat)
    (st : ServerState) (otherOk : Bool) :
    (cfg ≠ "" → (checkOrigin cfg req = true ↔ cfg = req)) ∧
    (cfg = "" → checkOrigin cfg req = true) ∧
    (checkOrigin cfg req = false →
      handleWSStep (checkOrigin cfg req) otherOk ws st = st) := by
  refine ⟨?_, ?_, ?_⟩
  · intro hne
    simp [checkOrigin, hne]
  · intro he
    simp [checkOrigin, he]
  · intro hf
    rw [hf]
    rfl

/-- Witness for C8: configured origin matching and mismatching request
origins behave as stated, and a mismatch leaves a one-connection registry
unchanged (connection 2 never appears). -/
theorem c8_origin_enforcement_witness :
    (checkOrigin "http://a" "http://a" = true ↔
      ("http://a" : String) = "http://a") ∧
    checkOrigin "" "http://b" = true ∧
    handleWSStep (checkOrigin "http://a" "http://b") true 2 oneConnState =
      oneConnState := by
  have h1 := c8_origin_enforcement "http://a" "http://a" 2 oneConnState true
  have h2 := c8_origin_enforcement "" "http://b" 2 oneConnState true
  have h3 := c8_origin_enforcement "http://a" "http://b" 2 oneConnState true
  exact ⟨h1.1 (by decide), h2.2.1 rfl, h3.2.2 (by decide)⟩

/-! Session model for the tail reader's offset invariant. A watch session is
a sequence of steps on the watched file state: an external write that changes
the file's contents, handled through the write branch of `reader.handleEvent`
(the `r.read` channel is unbuffered, so the mutation's notification is
processed in lockstep), or a consumer read through `reader.Read`, which takes
up to the requested number of bytes from the handle's position and advances
`r.offset` by exactly the byte count obtained. -/

/-- State of one watch session: the watched file's contents, the reader's
`offset` field, the open handle's position, and the size the last stat in the
write branch observed (`none` before the first write event). -/
structure TailState where
  content : List Nat
  offset : Int
  pos : Nat
  lastSize : Option Nat

/-- Initial session state produced by `NewReader` (with the `StartOffset` or
`SeekEnd` options, watch/watch.go lines 44-55) followed by `reader.openFile`
(lines 166-183): the offset field is the configured start offset, and the
handle is sought to that offset when positive, else to the end of the file
when `SeekEnd` was configured, else left at byte 0. -/
def tailInit (content : List Nat) (start : Int) (seekEnd : Bool) : TailState :=
  { content := content
    offset := start
    pos := if start > 0 then start.toNat
           else if seekEnd then content.length else 0
    lastSize := none }

/-- One session step: an external write replacing the file's contents
(its notification handled immediately), or a consumer read of up to `k`
bytes. -/
inductive TailStep where
  | write (newContent : List Nat)
  | read (k : Nat)

/-- Apply one step. The write step routes through `handleWrite` with the
stat's size — the current length of the file — exactly as the write branch of
`reader.handleEvent` does; the read step takes `min k (remaining bytes)` from
the handle's position and advances offset and position by that count
(`reader.Read` adds `n` to `r.offset` on a successful read of `n` bytes). -/
def applyTailStep (st : TailState) : TailStep → TailState
  | .write c =>
    let r := handleWrite (c.length : Int)
      { offset := st.offset, pos := (st.pos : Int) }
    { content := c
      offset := r.1.offset
      pos := r.1.pos.toNat
      lastSize := some c.length }
  | .read k =>
    let n := min k (st.content.length - st.pos)
    { st with offset := st.offset + (n : Int), pos := st.pos + n }

/-- Run a session trace. -/
def runTail (st : TailState) : List TailStep → TailState
  | [] => st
  | s :: rest => runTail (applyTailStep st s) rest

/-- Session invariant: the reader's offset never exceeds the handle position,
and when a stat has been observed, the offset does not exceed the observed
size and the file's length equals it (mutations are serialized with their
notifications). -/
def TailInv (st : TailState) : Prop :=
  st.offset ≤ (st.pos : Int) ∧
  ∀ S, st.lastSize = some S → st.offset ≤ (S : Int) ∧ st.content.length = S

/-- The initial state satisfies the session invariant. -/
theorem tailInit_inv (content : List Nat) (start : Int) (seekEnd : Bool) :
    TailInv (tailInit content start seekEnd) := by
  constructor
  · by_cases h : start > 0
    · simp [tailInit, h, Int.toNat_of_nonneg (le_of_lt h)]
    · push_neg at h
      refine le_trans h ?_
      positivity
  · intro S hS
    simp [tailInit] at hS

/-- Every step preserves the session invariant. -/
theorem applyTailStep_inv (st : TailState) (s : TailStep) (h : TailInv st) :
    TailInv (applyTailStep st s) := by
  obtain ⟨hpos, hlast⟩ := h
  cases s with
  | write c =>
    by_cases htr : (c.length : Int) ≤ st.offset
    · constructor
      · simp [applyTailStep, handleWrite, htr]
        split_ifs <;> simp
      · intro S hS
        simp [applyTailStep] at hS
        subst hS
        simp [applyTailStep, handleWrite, htr]
        split_ifs <;> simp
    · push_neg at htr
      constructor
      · simpa [applyTailStep, handleWrite, not_le.mpr htr] using hpos
      · intro S hS
        simp [applyTailStep] at hS
        subst hS
        simp [applyTailStep, handleWrite, not_le.mpr htr]
        exact le_of_lt htr
  | read k =>
    have hn : min k (st.content.length - st.pos) ≤
        st.content.length - st.pos := min_le_right _ _
    constructor
    · simp only [applyTailStep]
      omega
    · intro S hS
      simp only [applyTailStep] at hS ⊢
      obtain ⟨hoff, hlen⟩ := hlast S hS
      constructor
      · by_cases hple : st.pos ≤ st.content.length
        · have : st.offset + (min k (st.content.length - st.pos) : Int) ≤
              (st.content.length : Int) := by
            have := hpos
            omega
          omega
        · push_neg at hple
          have h0 : st.content.length - st.pos = 0 := by omega
          simp [h0] at hn ⊢
          have : min k (st.content.length - st.pos) = 0 := by omega
          simp [this]
          exact hoff
      · exact hlen

/-- Every reachable session state satisfies the invariant. -/
theorem runTail_inv (st : TailState) (trace : List TailStep)
    (h : TailInv st) : TailInv (runTail st trace) := by
  induction trace generalizing st with
  | nil => exact h
  | cons s rest ih => exact ih _ (applyTailStep_inv st s h)

/-- C9: Within one watch session, (i) the reader's offset never exceeds the
file's last observed size (the size stat'ed by the most recent write event),
and (ii) each step either leaves the offset no smaller than before or is an
explicit truncation-reset — a write event whose stat size is at most the
current offset — after which the offset is exactly 0. -/
theorem c9_offset_invariant (content : List Nat) (start : Int)
    (seekEnd : Bool) (trace : List TailStep) :
    (∀ S, (runTail (tailInit content start seekEnd) trace).lastSize = some S →
      (runTail (tailInit content start seekEnd) trace).offset ≤ (S : Int)) ∧
    (∀ st : TailState, ∀ s : TailStep,
      st.offset ≤ (applyTailStep st s).offset ∨
      (∃ c, s = TailStep.write c ∧ (c.length : Int) ≤ st.offset ∧
        (applyTailStep st s).offset = 0)) := by
  constructor
  · intro S hS
    exact ((runTail_inv _ trace (tailInit_inv content start seekEnd)).2
      S hS).1
  · intro st s
    cases s with
    | write c =>
      by_cases htr : (c.length : Int) ≤ st.offset
      · refine Or.inr ⟨c, rfl, htr, ?_⟩
        simp [applyTailStep, handleWrite, htr]
        split_ifs <;> rfl
      · refine Or.inl ?_
        simp [applyTailStep, handleWrite, htr]
    | read k =>
      refine Or.inl ?_
      simp only [applyTailStep]
      exact le_add_of_nonneg_right (Int.natCast_nonneg _)

/-- Witness for C9: after a session that truncates a 2-byte file to 1 byte
following a 2-byte read, the final offset (0, reset by the truncation) is at
most the last observed size 1. -/
theorem c9_offset_invariant_witness :
    (runTail (tailInit [7, 8] 0 false)
      [TailStep.read 2, TailStep.write [9]]).offset ≤ ((1 : Nat) : Int) := by
  exact (c9_offset_invariant [7, 8] 0 false
    [TailStep.read 2, TailStep.write [9]]).1 1 (by decide)

end TailWS
